import Mathlib

/-!
Shallow embedding of the Bayesian-optimization experiment driver of
`src/adbo/exp.py` (repository sdat2/worstsurge), with the collaborators the
driver treats as oracles (the external ADCIRC simulator, the random noise
draw of the dry-run stand-in, the fitted GP models, the Sobol sampler and the
acquisition rule's chosen points) passed in as explicit function parameters.
Machine floats are modelled by exact rationals.
-/

namespace Adbo

/-- One input dimension's constraint, as read from the constraints yaml:
`{min, max, units}` (src configuration files, consumed by `adbo.rescale`). -/
structure Constraint where
  min : ℚ
  max : ℚ
  units : String

/-- The constraints dictionary: the declared `order` of dimension names and
the per-name constraint table. -/
structure Constraints where
  order : List String
  table : List (String × Constraint)

/-- Lookup of a named constraint. The spec's data-model invariant says every
name in `order` has exactly one Constraint, so the default is never reached
on well-formed configurations. -/
def Constraints.find (cs : Constraints) (name : String) : Constraint :=
  match cs.table.lookup name with
  | some c => c
  | none => ⟨0, 1, ""⟩

/-- Modelled from the spec: `rescale_inverse` is imported from `adbo.rescale`,
a module that is not among the repository's staged source files. Per spec
section 4.1 it is the elementwise affine map `physical = min + x*(max-min)`
per dimension, preserving the declared `order`. -/
def rescale_inverse (x : List ℚ) (cs : Constraints) : List ℚ :=
  List.zipWith
    (fun name xi =>
      (cs.find name).min + xi * ((cs.find name).max - (cs.find name).min))
    cs.order x

/-- One entry of the ledger dict built by `add_query_to_output`
(src/adbo/exp.py lines 105-122): the `""` key holding the numbered working
directory (modelled by its call number), the un-negated result `res`, and one
key per name of `constraints.order` holding the rescaled input. -/
structure LedgerEntry where
  artifact_dir : Nat
  res : ℚ
  inputs : List (String × ℚ)

/-- Python dict assignment `d[k] = v`: overwrite in place when the key is
present, otherwise append; insertion order is preserved, as CPython dicts do. -/
def dictInsert (k : Int) (v : LedgerEntry) :
    List (Int × LedgerEntry) → List (Int × LedgerEntry)
  | [] => [(k, v)]
  | (k', v') :: rest =>
      if k' = k then (k, v) :: rest else (k', v') :: dictInsert k v rest

/-- The mutable closure state of `objective_f` (src/adbo/exp.py lines 87-88):
the shared `call_number` counter (initially `-1`) and the `output` dict that
`write_json` persists as `experiments.json` after every evaluation. -/
structure ObjState where
  call_number : Int
  output : List (Int × LedgerEntry)

/-- The closure state as `objective_f` creates it: `call_number = -1`,
`output = {}`. -/
def initObjState : ObjState := ⟨-1, []⟩

/-- The keys of the ledger dict, in insertion order. -/
def ledgerKeys (d : List (Int × LedgerEntry)) : List Int := d.map Prod.fst

/-- The `res` field recorded under key `k`, `0` when the key is absent. -/
def resAt (st : ObjState) (k : Int) : ℚ :=
  match st.output.lookup k with
  | some e => e.res
  | none => 0

/-- One entry of the experiment output directory. `numbered k` stands for the
working subdirectory `exp_<k zero-padded>` that `temp_dir` creates (its name
carries the `exp_` prefix); `stray b` is any other entry, with `b` recording
whether its name happens to start with `exp_`. -/
inductive DirEntry where
  | numbered (k : Nat)
  | stray (startsWithExp : Bool)
deriving DecidableEq

/-- Whether `run_exists`'s list comprehension keeps the entry: the source
filters `os.listdir` by `x.startswith("exp_")`. -/
def DirEntry.isExpEntry : DirEntry → Bool
  | .numbered _ => true
  | .stray b => b

/-- The on-disk state of one experiment's output directory, as far as the
driver reads and writes it. -/
structure ExpFS where
  outputDirExists : Bool
  entries : List DirEntry
  ledgerFileExists : Bool
  configFileExists : Bool
  resultsFileExists : Bool
deriving DecidableEq

/-- `os.makedirs(tmp_dir, exist_ok=True)` for the numbered working directory
`exp_<k>`: adds the entry when absent. -/
def addExpSubdir (fs : ExpFS) (k : Nat) : ExpFS :=
  if DirEntry.numbered k ∈ fs.entries then fs
  else { fs with entries := fs.entries ++ [DirEntry.numbered k] }

/-- `run_exists` (src/adbo/exp.py lines 455-479): the output directory
exists, its entries starting with `exp_` number exactly `num_runs`, and the
ledger file `experiments.json` exists. -/
def run_exists (fs : ExpFS) (num_runs : Nat) : Bool :=
  if fs.outputDirExists then
    if (fs.entries.filter DirEntry.isExpEntry).length = num_runs then
      if fs.ledgerFileExists then true else false
    else false
  else false

/-- The observable actions of one driver run, in program order. An
`objEval adaptive usedSimulator` is one row of `obj`'s loop: `adaptive` is
false for the initial design and true for acquisition-chosen points;
`usedSimulator` is true exactly when `idealized_tc_observe` was invoked
(false in dry-run mode). -/
inductive Event where
  | notice
  | mkdirOutput
  | writeConfig
  | objEval (adaptive : Bool) (usedSimulator : Bool)
  | ledgerWrite
  | checkpointWrite
  | configError (which : String)
  | resultsWrite
deriving DecidableEq

/-- A GP model as the callback consumes it: `predict_y` at a grid point,
returning (mean, variance). -/
abbrev Model := List ℚ → ℚ × ℚ

/-- The external collaborators and pluggable statistical primitives the
driver composes, spec section 6: all opaque to the core loop. `sim k` is the
scalar outcome `idealized_tc_observe` returns on call number `k`; `noise k`
the `np.random.normal()` draw of the dry-run stand-in; `sqrtq` the numerical
square root used for `ystd`; `initQ` the Sobol initial design; `acqQ k` the
point the acquisition rule selects for call number `k`; `models j` the GP
model passed to the checkpoint callback's `j`-th invocation; `acqFn` the
acquisition rule's evaluable surface when one exists. -/
structure Oracles where
  sim : Nat → ℚ
  noise : Nat → ℚ
  sqrtq : ℚ → ℚ
  initQ : Nat → List ℚ
  acqQ : Nat → List ℚ
  models : Nat → Model
  acqFn : Option (List ℚ → ℚ)

/-- The configuration `obj` closes over: the constraints and the `wrap_test`
dry-run flag. -/
structure EvalCfg where
  constraints : Constraints
  wrap_test : Bool

/-- What one row of `obj`'s loop produces. -/
structure RowResult where
  st : ObjState
  fs : ExpFS
  observed : ℚ
  events : List Event

/-- One row of the batch loop in `obj` (src/adbo/exp.py lines 139-191):
increment the shared call counter, create the numbered working directory,
produce the outcome (the clipped noisy constant `min(7 + normal(), 10)` in
dry-run mode, otherwise the external simulator), record the un-negated
outcome and the rescaled inputs in the ledger (`add_query_to_output`,
full-file rewrite of `experiments.json`), and return the negated outcome to
the optimizer. -/
def processRow (cfg : EvalCfg) (o : Oracles) (adaptive : Bool) (q : List ℚ)
    (st : ObjState) (fs : ExpFS) : RowResult :=
  let cn : Int := st.call_number + 1
  let k : Nat := cn.toNat
  let real_query := rescale_inverse q cfg.constraints
  let fs1 := addExpSubdir fs k
  let real_result : ℚ := if cfg.wrap_test then min (7 + o.noise k) 10 else o.sim k
  let entry : LedgerEntry := ⟨k, real_result, cfg.constraints.order.zip real_query⟩
  { st := ⟨cn, dictInsert cn entry st.output⟩
  , fs := { fs1 with ledgerFileExists := true }
  , observed := -real_result
  , events := [Event.objEval adaptive (!cfg.wrap_test), Event.ledgerWrite] }

/-- What one observer call on a batch of queries produces. -/
structure BatchResult where
  st : ObjState
  fs : ExpFS
  observed : List ℚ
  events : List Event

/-- The row-by-row batch loop of `obj` (src/adbo/exp.py line 139):
`for i in range(real_queries.shape[0])`. -/
def objBatch (cfg : EvalCfg) (o : Oracles) (adaptive : Bool) :
    List (List ℚ) → ObjState → ExpFS → BatchResult
  | [], st, fs => ⟨st, fs, [], []⟩
  | q :: rest, st, fs =>
      let r := processRow cfg o adaptive q st fs
      let b := objBatch cfg o adaptive rest r.st r.fs
      ⟨b.st, b.fs, r.observed :: b.observed, r.events ++ b.events⟩

/-- The acquisition rule as the callback sees it (trieste's
`EfficientGlobalOptimization`): its `acquisition_function` attribute is
`None` until the rule has built an evaluable surface. -/
structure AcqRule where
  acquisition_function : Option (List ℚ → ℚ)

/-- Grid resolution along the first axis (src/adbo/exp.py lines 228, 242). -/
def nx1 : Nat := 100

/-- Grid resolution along the second axis, deliberately different from `nx1`
(src/adbo/exp.py line 242). -/
def nx2 : Nat := 102

/-- `np.linspace(0, 1, num=n)`. -/
def linspace01 (n : Nat) : List ℚ :=
  (List.range n).map fun i => (i : ℚ) / ((n : ℚ) - 1)

/-- The fixed diagnostic grid `x_input` the callback evaluates the surrogate
on: `nx1` points for one dimension, the flattened `nx1 × nx2` meshgrid (`ij`
indexing) for two, and nothing otherwise (the callback records no fields for
three or more dimensions). -/
def x_input (dims : Nat) : List (List ℚ) :=
  if dims = 1 then (linspace01 nx1).map fun a => [a]
  else if dims = 2 then
    ((linspace01 nx1).map fun a => (linspace01 nx2).map fun b => [a, b]).flatten
  else []

/-- The number of points of the diagnostic grid. -/
def gridSize (dims : Nat) : Nat :=
  if dims = 1 then nx1 else if dims = 2 then nx1 * nx2 else 0

/-- The content of the checkpoint array file `gp_model_outputs.nc` as the
callback rewrites it after every step: the growing `call` coordinate, the
stacked `ypred` and `ystd` fields, and the stacked `acq` field when an
acquisition rule was supplied. Fields are stored flattened over the grid. -/
structure Checkpoint where
  callCoord : List Nat
  ypred : List (List ℚ)
  ystd : List (List ℚ)
  acq : Option (List (List ℚ))

/-- The mutable closure state of `gp_model_callback_maker`
(src/adbo/exp.py lines 224, 235-237, 269-271): the `call` counter and the
growing prediction lists, plus the last written checkpoint file. -/
structure CallbackState where
  call : Nat
  ypred_list : List (List ℚ)
  ystd_list : List (List ℚ)
  acq_list : List (List ℚ)
  written : Option Checkpoint

/-- The maker's freshly initialized closure state: `call = 0`, empty lists,
nothing written yet. -/
def initCallbackState : CallbackState := ⟨0, [], [], [], none⟩

/-- The body of the callback's `for i, model in enumerate(gp_models)` loop
for one model (src/adbo/exp.py lines 295-448): for one or two dimensions,
evaluate `predict_y` over the fixed grid, append the mean and standard
deviation fields, append the acquisition surface (the all-zero field when the
rule's `acquisition_function` is `None`), and rewrite the checkpoint file
with the one-based `call` coordinate `[x + 1 for x in range(len(ypred_list))]`.
For other dimensionalities only the TF checkpoint is saved and no field is
recorded. -/
def callbackModelStep (dims : Nat) (acq_rule : Option AcqRule) (sqrtq : ℚ → ℚ)
    (model : Model) (st : CallbackState) : CallbackState :=
  if dims = 1 ∨ dims = 2 then
    let grid := x_input dims
    let ypred_list := st.ypred_list ++ [grid.map fun p => (model p).1]
    let ystd_list := st.ystd_list ++ [grid.map fun p => sqrtq (model p).2]
    let acq_list :=
      match acq_rule with
      | none => st.acq_list
      | some r =>
          match r.acquisition_function with
          | some f => st.acq_list ++ [grid.map f]
          | none => st.acq_list ++ [List.replicate (gridSize dims) 0]
    let cp : Checkpoint :=
      { callCoord := (List.range ypred_list.length).map fun x => x + 1
      , ypred := ypred_list
      , ystd := ystd_list
      , acq := match acq_rule with | none => none | some _ => some acq_list }
    { st with ypred_list := ypred_list, ystd_list := ystd_list
            , acq_list := acq_list, written := some cp }
  else st

/-- `gp_model_callback` (src/adbo/exp.py lines 273-452): increment the call
counter, run the per-model loop, and return `False` (never stop). -/
def gp_model_callback (dims : Nat) (acq_rule : Option AcqRule) (sqrtq : ℚ → ℚ)
    (gp_models : List Model) (st : CallbackState) : CallbackState × Bool :=
  let st1 := { st with call := st.call + 1 }
  (gp_models.foldl (fun s m => callbackModelStep dims acq_rule sqrtq m s) st1, false)

/-- The `call` coordinate of the checkpoint file as last written, `[]` when
no checkpoint file has been written yet. -/
def writtenCallCoord (st : CallbackState) : List Nat :=
  match st.written with
  | some cp => cp.callCoord
  | none => []

/-- `k` invocations of the checkpoint callback from the maker's fresh state,
each invocation receiving the one fitted GP model the driver passes to
`bo.optimize` (src/adbo/exp.py lines 569, 587-598). -/
def iterCallback (dims : Nat) (acq_rule : Option AcqRule) (sqrtq : ℚ → ℚ)
    (models : Nat → Model) : Nat → CallbackState
  | 0 => initCallbackState
  | k + 1 =>
      (gp_model_callback dims acq_rule sqrtq [models k]
        (iterCallback dims acq_rule sqrtq models k)).1

/-- The final consolidated results file written by `save_results`
(src/adbo/exp.py lines 609-631): the one-based `call` coordinate, one data
variable `x<i>` per name of `constraints.order` holding the rescaled physical
inputs, and the sign-corrected outcome `y = -observations`. -/
structure ResultsFile where
  callCoord : List Nat
  xcols : List (String × List ℚ)
  y : List ℚ

/-- `save_results` (src/adbo/exp.py lines 609-631). -/
def save_results (cs : Constraints) (rescaled_query_points : List (List ℚ))
    (observations : List ℚ) : ResultsFile :=
  { callCoord := (List.range observations.length).map fun x => x + 1
  , xcols := (List.range cs.order.length).map fun i =>
      ("x" ++ toString i, rescaled_query_points.map fun row => row.getD i 0)
  , y := observations.map fun v => -v }

/-- The driver's configuration parameters relevant to the core loop
(src/adbo/exp.py lines 483-497). -/
structure DriverCfg where
  constraints : Constraints
  exp_name : String
  root_exp_direc : String
  init_steps : Nat
  daf_steps : Nat
  daf : String
  kernel : String
  wrap_test : Bool

/-- Modelled from the spec: `EXP_PATH` is imported from `adbo.constants`,
which is not among the staged source files; the docstring of
`run_bayesopt_exp` (src/adbo/exp.py line 506) names the default experiment
root as `/work/n01/n01/sithom/adcirc-swan/exp`. Only its equality with the
`root_exp_direc` argument matters to the driver: `run_exists` always joins
`EXP_PATH` with the experiment name (src/adbo/exp.py lines 466, 471, 477),
while the run itself writes under `root_exp_direc` (line 516). -/
def EXP_PATH : String := "/work/n01/n01/sithom/adcirc-swan/exp"

/-- Python's `name.startswith("exp_")`, the filter of `run_exists`, as the
character-prefix test. -/
def startsWithExp (name : String) : Bool :=
  "exp_".data.isPrefixOf name.data

/-- The states of the directories `<root>/<exp_name>` for the one experiment
name under consideration, keyed by the root path (path equality modelled as
string equality). `run_exists` reads the entry at `EXP_PATH`; the run
mutates the entry at `root_exp_direc` — the two alias exactly when the
roots are equal. -/
def World : Type := String → ExpFS

/-- Writing back the state of `<root>/<exp_name>`. -/
def World.update (w : World) (root : String) (fs : ExpFS) : World :=
  fun r => if r = root then fs else w r

/-- What the adaptive (ask-tell) phase of `bo.optimize` produces. -/
structure LoopResult where
  st : ObjState
  fs : ExpFS
  cb : CallbackState
  queries : List (List ℚ)
  observed : List ℚ
  events : List Event

/-- The adaptive phase: `daf_steps` sequential steps, each evaluating the one
acquisition-chosen point through the observer and then invoking the
checkpoint callback with the current model, stopping early if the callback
signals stop (trieste's `early_stop_callback` contract; the one-or-two
dimensional callback also rewrites the checkpoint file each step). -/
def adaptiveLoop (ecfg : EvalCfg) (o : Oracles) (dims : Nat)
    (acq_rule : Option AcqRule) :
    Nat → ObjState → ExpFS → CallbackState → LoopResult
  | 0, st, fs, cb => ⟨st, fs, cb, [], [], []⟩
  | n + 1, st, fs, cb =>
      let q := o.acqQ (st.call_number + 1).toNat
      let r := processRow ecfg o true q st fs
      let c := gp_model_callback dims acq_rule o.sqrtq [o.models cb.call] cb
      let evc := if dims = 1 ∨ dims = 2 then [Event.checkpointWrite] else []
      if c.2 then ⟨r.st, r.fs, c.1, [q], [r.observed], r.events ++ evc⟩
      else
        let rest := adaptiveLoop ecfg o dims acq_rule n r.st r.fs c.1
        ⟨rest.st, rest.fs, rest.cb, q :: rest.queries,
          r.observed :: rest.observed, r.events ++ evc ++ rest.events⟩

/-- What one driver invocation produces. -/
structure DriverResult where
  world : World
  events : List Event
  outcome : Except String Unit
  results : Option ResultsFile

/-- The recognized kernel names (src/adbo/exp.py lines 557-564). -/
def knownKernels : List String := ["Matern52", "Matern32", "SE"]

/-- The recognized acquisition-rule names (src/adbo/exp.py lines 572-583). -/
def knownDafs : List String := ["mes", "ei", "ucb"]

/-- `run_bayesopt_exp` (src/adbo/exp.py lines 483-676), in program order:
the resumability check — which always inspects `EXP_PATH/<exp_name>` (line
466) even though the run writes under `root_exp_direc/<exp_name>` (line
516) — returning early, with no side effect, when it passes; creation of
the output directory and write of the resolved configuration; the Sobol
initial design evaluated through the observer; the kernel-name dispatch
(fatal `ValueError` on an unknown name, raised only after the initial
design has been evaluated); the acquisition-name dispatch (likewise fatal);
the adaptive loop with the checkpoint callback; and the final consolidated
results file `<exp_name>_results.nc` (line 629), written into the output
directory as a real entry — it matches `run_exists`'s `exp_` filter exactly
when its name carries that prefix (overwriting, not duplicating, on a
rerun). The other files written there (`bo-config.json`, `experiments.json`,
`gp_model_outputs.nc`, the TF checkpoints) never match the filter and are
tracked by the existence booleans and events. Plotting is omitted (spec:
out of scope). -/
def run_bayesopt_exp (cfg : DriverCfg) (w : World) (o : Oracles) : DriverResult :=
  if run_exists (w EXP_PATH) (cfg.init_steps + cfg.daf_steps) then
    { world := w, events := [Event.notice], outcome := Except.ok ()
    , results := none }
  else
    let ecfg : EvalCfg := ⟨cfg.constraints, cfg.wrap_test⟩
    let dims := cfg.constraints.order.length
    let fs1 := { w cfg.root_exp_direc with
                 outputDirExists := true, configFileExists := true }
    let ev0 := [Event.mkdirOutput, Event.writeConfig]
    let initQs := (List.range cfg.init_steps).map o.initQ
    let b := objBatch ecfg o false initQs initObjState fs1
    if cfg.kernel ∈ knownKernels then
      if cfg.daf ∈ knownDafs then
        let acq_rule : Option AcqRule := some ⟨o.acqFn⟩
        let l := adaptiveLoop ecfg o dims acq_rule cfg.daf_steps b.st b.fs
          initCallbackState
        let query_points := initQs ++ l.queries
        let observations := b.observed ++ l.observed
        let rescaled := query_points.map fun q => rescale_inverse q cfg.constraints
        let fsFinal :=
          { l.fs with
            entries := l.fs.entries
              ++ (if l.fs.resultsFileExists then []
                  else [DirEntry.stray
                          (startsWithExp (cfg.exp_name ++ "_results.nc"))])
          , resultsFileExists := true }
        { world := w.update cfg.root_exp_direc fsFinal
        , events := ev0 ++ b.events ++ l.events ++ [Event.resultsWrite]
        , outcome := Except.ok ()
        , results := some (save_results cfg.constraints rescaled observations) }
      else
        { world := w.update cfg.root_exp_direc b.fs
        , events := ev0 ++ b.events ++ [Event.configError "acquisition"]
        , outcome := Except.error ("Unknown acquisition function " ++ cfg.daf)
        , results := none }
    else
      { world := w.update cfg.root_exp_direc b.fs
      , events := ev0 ++ b.events ++ [Event.configError "kernel"]
      , outcome := Except.error ("Unknown kernel " ++ cfg.kernel)
      , results := none }

/-- The initial-design phase of one driver run, as `run_bayesopt_exp`
performs it on the success path: the Sobol batch evaluated on the directory
under `root_exp_direc` (an abbreviation of the corresponding subterm of
`run_bayesopt_exp`, for stating lemmas about it). -/
def initPhase (cfg : DriverCfg) (w : World) (o : Oracles) : BatchResult :=
  objBatch ⟨cfg.constraints, cfg.wrap_test⟩ o false
    ((List.range cfg.init_steps).map o.initQ) initObjState
    { w cfg.root_exp_direc with outputDirExists := true, configFileExists := true }

/-- The adaptive phase of one driver run following the initial design (an
abbreviation of the corresponding subterm of `run_bayesopt_exp`). -/
def adaptPhase (cfg : DriverCfg) (w : World) (o : Oracles) : LoopResult :=
  adaptiveLoop ⟨cfg.constraints, cfg.wrap_test⟩ o cfg.constraints.order.length
    (some ⟨o.acqFn⟩) cfg.daf_steps (initPhase cfg w o).st (initPhase cfg w o).fs
    initCallbackState

/-- Whether the outcome is a raised error. -/
def isError : Except String Unit → Bool
  | .error _ => true
  | .ok _ => false

/-- Number of events satisfying the predicate. -/
def countEvents (p : Event → Bool) (evs : List Event) : Nat :=
  (evs.filter p).length

/-- An objective evaluation that invoked the external simulator. -/
def isSimEval : Event → Bool
  | .objEval _ true => true
  | _ => false

/-- An objective evaluation of the adaptive (acquisition-driven) phase. -/
def isAdaptiveEval : Event → Bool
  | .objEval true _ => true
  | _ => false

/-- Any objective evaluation (dry-run ones included). -/
def isObjEval : Event → Bool
  | .objEval _ _ => true
  | _ => false

/-- The three-dimensional constraints of the spec's worked example:
`{angle: [-80,80], trans_speed: [0,15], displacement: [-2,2]}` with
`order = (angle, trans_speed, displacement)`. -/
def exampleConstraints : Constraints :=
  { order := ["angle", "trans_speed", "displacement"]
  , table :=
      [ ("angle", ⟨-80, 80, "degrees"⟩)
      , ("trans_speed", ⟨0, 15, "m s-1"⟩)
      , ("displacement", ⟨-2, 2, "degrees"⟩) ] }

/-- An experiment output directory that does not exist yet. -/
def freshFS : ExpFS := ⟨false, [], false, false, false⟩

/-- A filesystem in which no experiment directory exists under any root. -/
def freshWorld : World := fun _ => freshFS

/-- Concrete oracles for closed instances: every collaborator returns zero
(or the zero query point), and no acquisition surface is evaluable. -/
def zeroOracles : Oracles :=
  { sim := fun _ => 0
  , noise := fun _ => 0
  , sqrtq := fun _ => 0
  , initQ := fun _ => [0, 0, 0]
  , acqQ := fun _ => [0, 0, 0]
  , models := fun _ => fun _ => (0, 0)
  , acqFn := none }

/-- A driver configuration whose kernel name is not one of
`{Matern52, Matern32, SE}`, one initial-design step, one adaptive step, the
real simulator enabled. -/
def badKernelCfg : DriverCfg :=
  { constraints := exampleConstraints
  , exp_name := "bo_test"
  , root_exp_direc := EXP_PATH
  , init_steps := 1
  , daf_steps := 1
  , daf := "mes"
  , kernel := "RBF"
  , wrap_test := false }

/-- A well-formed driver configuration (recognized kernel and acquisition
names) whose experiment root is not the default `EXP_PATH`, one
initial-design step and one adaptive step, the real simulator enabled. -/
def customRootCfg : DriverCfg :=
  { constraints := exampleConstraints
  , exp_name := "bo_test"
  , root_exp_direc := "/tmp/exps"
  , init_steps := 1
  , daf_steps := 1
  , daf := "mes"
  , kernel := "Matern52"
  , wrap_test := false }

/-- The closure-state invariant of `objective_f` after `n` evaluations: the
counter is `n - 1` and the ledger keys are exactly `0, 1, ..., n-1` in
order. -/
def LedgerInv (n : Nat) (st : ObjState) : Prop :=
  st.call_number = (n : Int) - 1 ∧
  ledgerKeys st.output = (List.range n).map Int.ofNat

/-- The on-disk invariant after `n` evaluations: the `exp_`-prefixed entries
of the output directory are exactly the numbered working directories
`0, ..., n-1`, the ledger file exists once anything was evaluated, and the
output directory exists. -/
def FsInv (n : Nat) (fs : ExpFS) : Prop :=
  fs.entries.filter DirEntry.isExpEntry = (List.range n).map DirEntry.numbered ∧
  (0 < n → fs.ledgerFileExists = true) ∧
  fs.outputDirExists = true

/-! ### Helper lemmas -/

/-- Inserting a fresh key into the ledger dict appends it. -/
lemma ledgerKeys_dictInsert (k : Int) (v : LedgerEntry) :
    ∀ (d : List (Int × LedgerEntry)), k ∉ ledgerKeys d →
      ledgerKeys (dictInsert k v d) = ledgerKeys d ++ [k]
  | [], _ => rfl
  | (k', v') :: rest, hk => by
      simp only [ledgerKeys, List.map_cons, List.mem_cons, not_or] at hk
      have hne : k' ≠ k := fun h => hk.1 h.symm
      have hrest : k ∉ ledgerKeys rest := hk.2
      show ledgerKeys (if k' = k then (k, v) :: rest else (k', v') :: dictInsert k v rest)
        = ledgerKeys ((k', v') :: rest) ++ [k]
      rw [if_neg hne]
      show k' :: ledgerKeys (dictInsert k v rest) = (k' :: ledgerKeys rest) ++ [k]
      rw [ledgerKeys_dictInsert k v rest hrest]
      rfl

/-- Looking up the just-inserted key returns the new entry. -/
lemma lookup_dictInsert (k : Int) (v : LedgerEntry) :
    ∀ (d : List (Int × LedgerEntry)), (dictInsert k v d).lookup k = some v
  | [] => by simp [dictInsert]
  | (k', v') :: rest => by
      by_cases h : k' = k
      · subst h
        have hstep : dictInsert k' v ((k', v') :: rest) = (k', v) :: rest := by
          simp [dictInsert]
        rw [hstep]
        simp
      · have hstep : dictInsert k v ((k', v') :: rest)
            = (k', v') :: dictInsert k v rest := by
          simp [dictInsert, h]
        have hbeq : (k == k') = false := by
          simp [Ne.symm h]
        rw [hstep]
        simp only [List.lookup, hbeq]
        exact lookup_dictInsert k v rest

lemma ledgerInv_processRow (cfg : EvalCfg) (o : Oracles) (adaptive : Bool)
    (q : List ℚ) (st : ObjState) (fs : ExpFS) (n : Nat) (h : LedgerInv n st) :
    LedgerInv (n + 1) (processRow cfg o adaptive q st fs).st := by
  obtain ⟨hc, hk⟩ := h
  have hkey : (st.call_number + 1) ∉ ledgerKeys st.output := by
    rw [hk, hc]
    simp only [List.mem_map, List.mem_range, Int.ofNat_eq_natCast]
    rintro ⟨m, hm, hEq⟩
    omega
  constructor
  · show st.call_number + 1 = ((n + 1 : Nat) : Int) - 1
    rw [hc]; push_cast; ring
  · show ledgerKeys (dictInsert (st.call_number + 1) _ st.output)
      = (List.range (n + 1)).map Int.ofNat
    rw [ledgerKeys_dictInsert _ _ _ hkey, hk, List.range_succ, List.map_append]
    congr 1
    simp only [List.map_cons, List.map_nil, Int.ofNat_eq_natCast]
    congr 1
    omega

lemma fsInv_processRow (cfg : EvalCfg) (o : Oracles) (adaptive : Bool)
    (q : List ℚ) (st : ObjState) (fs : ExpFS) (n : Nat)
    (hst : LedgerInv n st) (h : FsInv n fs) :
    FsInv (n + 1) (processRow cfg o adaptive q st fs).fs := by
  obtain ⟨hc, _⟩ := hst
  obtain ⟨he, _, ho⟩ := h
  have hnat : (st.call_number + 1).toNat = n := by omega
  have hmem : DirEntry.numbered n ∉ fs.entries := by
    intro hm
    have hmf : DirEntry.numbered n ∈ fs.entries.filter DirEntry.isExpEntry :=
      List.mem_filter.mpr ⟨hm, rfl⟩
    rw [he] at hmf
    simp only [List.mem_map, List.mem_range] at hmf
    obtain ⟨m, hm', hEq⟩ := hmf
    cases hEq; omega
  have hfs : (processRow cfg o adaptive q st fs).fs
      = { fs with entries := fs.entries ++ [DirEntry.numbered n]
                , ledgerFileExists := true } := by
    show { addExpSubdir fs (st.call_number + 1).toNat with ledgerFileExists := true } = _
    rw [hnat, addExpSubdir, if_neg hmem]
  rw [hfs]
  refine ⟨?_, fun _ => rfl, ho⟩
  show List.filter DirEntry.isExpEntry (fs.entries ++ [DirEntry.numbered n])
    = (List.range (n + 1)).map DirEntry.numbered
  rw [List.filter_append, he, List.range_succ, List.map_append]
  simp [DirEntry.isExpEntry]

lemma ledgerInv_objBatch (cfg : EvalCfg) (o : Oracles) (adaptive : Bool) :
    ∀ (qs : List (List ℚ)) (st : ObjState) (fs : ExpFS) (n : Nat),
      LedgerInv n st →
      LedgerInv (n + qs.length) (objBatch cfg o adaptive qs st fs).st
  | [], st, fs, n, h => by simpa [objBatch] using h
  | q :: rest, st, fs, n, h => by
      have h1 := ledgerInv_processRow cfg o adaptive q st fs n h
      have h2 := ledgerInv_objBatch cfg o adaptive rest
        (processRow cfg o adaptive q st fs).st
        (processRow cfg o adaptive q st fs).fs (n + 1) h1
      have harith : n + 1 + rest.length = n + (q :: rest).length := by
        simp [List.length_cons]; omega
      rw [harith] at h2
      have hb : (objBatch cfg o adaptive (q :: rest) st fs).st
          = (objBatch cfg o adaptive rest (processRow cfg o adaptive q st fs).st
              (processRow cfg o adaptive q st fs).fs).st := rfl
      rw [hb]
      exact h2

lemma fsInv_objBatch (cfg : EvalCfg) (o : Oracles) (adaptive : Bool) :
    ∀ (qs : List (List ℚ)) (st : ObjState) (fs : ExpFS) (n : Nat),
      LedgerInv n st → FsInv n fs →
      FsInv (n + qs.length) (objBatch cfg o adaptive qs st fs).fs
  | [], st, fs, n, _, h => by simpa [objBatch] using h
  | q :: rest, st, fs, n, hst, h => by
      have h1 := ledgerInv_processRow cfg o adaptive q st fs n hst
      have h2 := fsInv_processRow cfg o adaptive q st fs n hst h
      have h3 := fsInv_objBatch cfg o adaptive rest
        (processRow cfg o adaptive q st fs).st
        (processRow cfg o adaptive q st fs).fs (n + 1) h1 h2
      have harith : n + 1 + rest.length = n + (q :: rest).length := by
        simp [List.length_cons]; omega
      rw [harith] at h3
      have hb : (objBatch cfg o adaptive (q :: rest) st fs).fs
          = (objBatch cfg o adaptive rest (processRow cfg o adaptive q st fs).st
              (processRow cfg o adaptive q st fs).fs).fs := rfl
      rw [hb]
      exact h3

/-- The ledger keys after any uninterrupted evaluation sequence from the
fresh closure state are exactly `0, ..., k` in order. -/
lemma ledger_keys_objBatch (cfg : EvalCfg) (o : Oracles) (adaptive : Bool)
    (qs : List (List ℚ)) (fs : ExpFS) :
    ledgerKeys (objBatch cfg o adaptive qs initObjState fs).st.output
      = (List.range qs.length).map Int.ofNat := by
  have h0 : LedgerInv 0 initObjState := ⟨rfl, rfl⟩
  have := ledgerInv_objBatch cfg o adaptive qs initObjState fs 0 h0
  simpa [LedgerInv] using this.2

/-- The events of a batch: each row contributes one objective evaluation and
one ledger rewrite, independent of the query values. -/
lemma objBatch_events (cfg : EvalCfg) (o : Oracles) (adaptive : Bool) :
    ∀ (qs : List (List ℚ)) (st : ObjState) (fs : ExpFS),
      (objBatch cfg o adaptive qs st fs).events
        = (List.replicate qs.length
            [Event.objEval adaptive (!cfg.wrap_test), Event.ledgerWrite]).flatten
  | [], _, _ => rfl
  | q :: rest, st, fs => by
      have ih := objBatch_events cfg o adaptive rest
        (processRow cfg o adaptive q st fs).st (processRow cfg o adaptive q st fs).fs
      have hb : (objBatch cfg o adaptive (q :: rest) st fs).events
          = (processRow cfg o adaptive q st fs).events
            ++ (objBatch cfg o adaptive rest (processRow cfg o adaptive q st fs).st
                  (processRow cfg o adaptive q st fs).fs).events := rfl
      rw [hb, ih]
      simp [processRow, List.replicate_succ]

lemma countEvents_append (p : Event → Bool) (l1 l2 : List Event) :
    countEvents p (l1 ++ l2) = countEvents p l1 + countEvents p l2 := by
  simp [countEvents, List.filter_append]

lemma countEvents_flatten_replicate (p : Event → Bool) (l : List Event) :
    ∀ (n : Nat), countEvents p (List.replicate n l).flatten = n * countEvents p l
  | 0 => by simp [countEvents]
  | n + 1 => by
      rw [List.replicate_succ, List.flatten_cons, countEvents_append,
        countEvents_flatten_replicate p l n]
      ring

/-- `getD` through `zipWith`, inside both lengths. -/
lemma zipWith_getD (f : String → ℚ → ℚ) :
    ∀ (l1 : List String) (l2 : List ℚ) (i : Nat), i < l1.length → i < l2.length →
      (List.zipWith f l1 l2).getD i 0 = f (l1.getD i "") (l2.getD i 0)
  | [], _, i, h1, _ => by simp at h1
  | _ :: _, [], i, _, h2 => by simp at h2
  | a :: l1, b :: l2, 0, _, _ => rfl
  | a :: l1, b :: l2, i + 1, h1, h2 => by
      have h1' : i < l1.length := by simpa using h1
      have h2' : i < l2.length := by simpa using h2
      simpa using zipWith_getD f l1 l2 i h1' h2'

/-- One callback invocation with a single model, in the recorded
dimensionalities: the prediction list grows by one and the rewritten
checkpoint's `call` coordinate is the one-based range over its length. -/
lemma callback_single_step (dims : Nat) (ar : Option AcqRule) (sqrtq : ℚ → ℚ)
    (m : Model) (st : CallbackState) (h : dims = 1 ∨ dims = 2) :
    (gp_model_callback dims ar sqrtq [m] st).1.ypred_list.length
        = st.ypred_list.length + 1 ∧
    writtenCallCoord (gp_model_callback dims ar sqrtq [m] st).1
        = (List.range (st.ypred_list.length + 1)).map (fun x => x + 1) := by
  have hstep : (gp_model_callback dims ar sqrtq [m] st).1
      = callbackModelStep dims ar sqrtq m { st with call := st.call + 1 } := rfl
  rw [hstep, callbackModelStep, if_pos h]
  cases ar with
  | none => simp [writtenCallCoord]
  | some r =>
      cases r.acquisition_function with
      | none => simp [writtenCallCoord]
      | some f => simp [writtenCallCoord]

/-- After `k` singleton-model invocations from the fresh state: `k` recorded
fields and the one-based `call` coordinate `[1, ..., k]`. -/
lemma iterCallback_spec (dims : Nat) (ar : Option AcqRule) (sqrtq : ℚ → ℚ)
    (models : Nat → Model) (h : dims = 1 ∨ dims = 2) :
    ∀ (k : Nat),
      (iterCallback dims ar sqrtq models k).ypred_list.length = k ∧
      writtenCallCoord (iterCallback dims ar sqrtq models k)
        = (List.range k).map (fun x => x + 1)
  | 0 => by constructor <;> rfl
  | k + 1 => by
      obtain ⟨ih1, _⟩ := iterCallback_spec dims ar sqrtq models h k
      have hs := callback_single_step dims ar sqrtq (models k)
        (iterCallback dims ar sqrtq models k) h
      constructor
      · rw [show iterCallback dims ar sqrtq models (k + 1)
            = (gp_model_callback dims ar sqrtq [models k]
                (iterCallback dims ar sqrtq models k)).1 from rfl]
        rw [hs.1, ih1]
      · rw [show iterCallback dims ar sqrtq models (k + 1)
            = (gp_model_callback dims ar sqrtq [models k]
                (iterCallback dims ar sqrtq models k)).1 from rfl]
        rw [hs.2, ih1]

/-- The one-based coordinate list is `range' 1`. -/
lemma map_succ_range (n : Nat) :
    (List.range n).map (fun x => x + 1) = List.range' 1 n := by
  rw [List.range'_eq_map_range]
  exact List.map_congr_left fun x _ => Nat.add_comm x 1

/-- The evaluation invariants carry through the adaptive phase: the callback
never signals stop, so all `steps` evaluations run. -/
lemma inv_adaptiveLoop (ecfg : EvalCfg) (o : Oracles) (dims : Nat)
    (ar : Option AcqRule) :
    ∀ (steps : Nat) (st : ObjState) (fs : ExpFS) (cb : CallbackState) (n : Nat),
      LedgerInv n st → FsInv n fs →
      LedgerInv (n + steps) (adaptiveLoop ecfg o dims ar steps st fs cb).st ∧
      FsInv (n + steps) (adaptiveLoop ecfg o dims ar steps st fs cb).fs
  | 0, st, fs, cb, n, h1, h2 => by simpa [adaptiveLoop] using ⟨h1, h2⟩
  | steps + 1, st, fs, cb, n, h1, h2 => by
      have hp1 := ledgerInv_processRow ecfg o true
        (o.acqQ (st.call_number + 1).toNat) st fs n h1
      have hp2 := fsInv_processRow ecfg o true
        (o.acqQ (st.call_number + 1).toNat) st fs n h1 h2
      have ih := inv_adaptiveLoop ecfg o dims ar steps
        (processRow ecfg o true (o.acqQ (st.call_number + 1).toNat) st fs).st
        (processRow ecfg o true (o.acqQ (st.call_number + 1).toNat) st fs).fs
        (gp_model_callback dims ar o.sqrtq [o.models cb.call] cb).1
        (n + 1) hp1 hp2
      have harith : n + 1 + steps = n + (steps + 1) := by omega
      rw [harith] at ih
      have hst : (adaptiveLoop ecfg o dims ar (steps + 1) st fs cb).st
          = (adaptiveLoop ecfg o dims ar steps
              (processRow ecfg o true (o.acqQ (st.call_number + 1).toNat) st fs).st
              (processRow ecfg o true (o.acqQ (st.call_number + 1).toNat) st fs).fs
              (gp_model_callback dims ar o.sqrtq [o.models cb.call] cb).1).st := rfl
      have hfs : (adaptiveLoop ecfg o dims ar (steps + 1) st fs cb).fs
          = (adaptiveLoop ecfg o dims ar steps
              (processRow ecfg o true (o.acqQ (st.call_number + 1).toNat) st fs).st
              (processRow ecfg o true (o.acqQ (st.call_number + 1).toNat) st fs).fs
              (gp_model_callback dims ar o.sqrtq [o.models cb.call] cb).1).fs := rfl
      constructor
      · rw [hst]; exact ih.1
      · rw [hfs]; exact ih.2

/-- After `n > 0` evaluations the resumability check passes. -/
lemma run_exists_of_fsInv (fs : ExpFS) (n : Nat) (h : FsInv n fs) (hn : 0 < n) :
    run_exists fs n = true := by
  obtain ⟨he, hl, ho⟩ := h
  simp [run_exists, ho, he, hl hn]

/-- Appending only entries the `exp_` filter rejects, and marking the
results file written, preserves the on-disk invariant. -/
lemma fsInv_append_nonmatching (n : Nat) (fs : ExpFS) (ex : List DirEntry)
    (h : FsInv n fs) (hex : ex.filter DirEntry.isExpEntry = []) :
    FsInv n { fs with entries := fs.entries ++ ex, resultsFileExists := true } := by
  refine ⟨?_, h.2.1, h.2.2⟩
  show List.filter DirEntry.isExpEntry (fs.entries ++ ex)
    = (List.range n).map DirEntry.numbered
  rw [List.filter_append, h.1, hex, List.append_nil]

/-- Writing back a root's directory and reading it again. -/
lemma World.update_self (w : World) (root : String) (fs : ExpFS) :
    w.update root fs root = fs := by
  simp [World.update]

/-- The directory the success path of one driver run leaves under
`root_exp_direc`: the adaptive phase's directory plus the results file's
entry (deduplicated) and existence mark. -/
lemma run_bayesopt_success_world (cfg : DriverCfg) (w : World) (o : Oracles)
    (hrun : run_exists (w EXP_PATH) (cfg.init_steps + cfg.daf_steps) = false)
    (hk : cfg.kernel ∈ knownKernels) (hd : cfg.daf ∈ knownDafs) :
    (run_bayesopt_exp cfg w o).world
      = w.update cfg.root_exp_direc
          { (adaptPhase cfg w o).fs with
            entries := (adaptPhase cfg w o).fs.entries
              ++ (if (adaptPhase cfg w o).fs.resultsFileExists then []
                  else [DirEntry.stray
                          (startsWithExp (cfg.exp_name ++ "_results.nc"))])
          , resultsFileExists := true } := by
  simp [run_bayesopt_exp, adaptPhase, initPhase, hrun, hk, hd]

/-! ### Claim theorems -/

/-- C2: for every single uninterrupted run, after each objective evaluation
the ledger written by the evaluator is a mapping whose `call_number` keys are
exactly `0, 1, ..., k` for the `k+1` observations made so far — strictly
increasing by 1 starting at 0, no gaps, no key reused or removed (keys of an
earlier write are a prefix of every later write's keys). -/
theorem ledger_call_numbers_consecutive :
    (∀ (cfg : EvalCfg) (o : Oracles) (adaptive : Bool) (qs : List (List ℚ))
        (fs : ExpFS),
        ledgerKeys (objBatch cfg o adaptive qs initObjState fs).st.output
          = (List.range qs.length).map Int.ofNat) ∧
    (∀ (cfg : EvalCfg) (o : Oracles) (adaptive : Bool) (qs more : List (List ℚ))
        (fs : ExpFS),
        ledgerKeys (objBatch cfg o adaptive qs initObjState fs).st.output <+:
          ledgerKeys (objBatch cfg o adaptive (qs ++ more) initObjState fs).st.output) := by
  refine ⟨ledger_keys_objBatch, ?_⟩
  intro cfg o adaptive qs more fs
  rw [ledger_keys_objBatch, ledger_keys_objBatch]
  apply List.IsPrefix.map
  rw [List.length_append]
  have h : List.range qs.length
      = (List.range (qs.length + more.length)).take qs.length := by
    rw [List.take_range]
    congr 1
    omega
  rw [h]
  exact List.take_prefix _ _

/-- C3: `run_exists` returns true if and only if the output directory
exists, contains exactly `n` `exp_`-prefixed entries, and contains the
ledger file; it returns false whenever any of these is missing, in
particular with `n-1` or `n+1` numbered subdirectories present. -/
theorem run_exists_iff_complete (fs : ExpFS) (n : Nat) :
    (run_exists fs n = true ↔
      fs.outputDirExists = true ∧
      (fs.entries.filter DirEntry.isExpEntry).length = n ∧
      fs.ledgerFileExists = true) ∧
    ((fs.entries.filter DirEntry.isExpEntry).length ≠ n → run_exists fs n = false) ∧
    ((fs.entries.filter DirEntry.isExpEntry).length = n + 1 → run_exists fs n = false) ∧
    (0 < n → (fs.entries.filter DirEntry.isExpEntry).length = n - 1 →
      run_exists fs n = false) ∧
    (fs.outputDirExists = false → run_exists fs n = false) ∧
    (fs.ledgerFileExists = false → run_exists fs n = false) := by
  unfold run_exists
  split_ifs with h1 h2 h3 <;> simp_all <;> omega

/-- C4: the value the evaluator returns to the optimization loop is the
negative of the outcome it records under `res` in the ledger, and the
results file's `y` column is the negation of the optimizer's recorded
observations — so `y` is the un-negated, physical-domain outcome. -/
theorem objective_sign_convention :
    (∀ (cfg : EvalCfg) (o : Oracles) (adaptive : Bool) (q : List ℚ)
        (st : ObjState) (fs : ExpFS),
        (processRow cfg o adaptive q st fs).observed
          = -(resAt (processRow cfg o adaptive q st fs).st (st.call_number + 1))) ∧
    (∀ (cs : Constraints) (qs : List (List ℚ)) (obs : List ℚ),
        (save_results cs qs obs).y = obs.map fun v => -v) ∧
    (∀ (cs : Constraints) (qs : List (List ℚ)) (outcomes : List ℚ),
        (save_results cs qs (outcomes.map fun r => -r)).y = outcomes) := by
  refine ⟨?_, fun cs qs obs => rfl, ?_⟩
  · intro cfg o adaptive q st fs
    have hres : resAt (processRow cfg o adaptive q st fs).st (st.call_number + 1)
        = (if cfg.wrap_test then min (7 + o.noise (st.call_number + 1).toNat) 10
           else o.sim (st.call_number + 1).toNat) := by
      simp [processRow, resAt, lookup_dictInsert]
    rw [hres]
    simp [processRow]
  · intro cs qs outcomes
    simp [save_results, List.map_map, Function.comp_def]

/-- C5: with the dry-run flag enabled the external Simulator collaborator is
never invoked, and the produced outcome is the clipped noisy constant
`min(7 + normal(), 10)`, hence bounded by the clip value 10 of the synthetic
range. -/
theorem dry_run_no_simulator (cs : Constraints) (o : Oracles) (adaptive : Bool)
    (q : List ℚ) (st : ObjState) (fs : ExpFS) :
    countEvents isSimEval (processRow ⟨cs, true⟩ o adaptive q st fs).events = 0 ∧
    resAt (processRow ⟨cs, true⟩ o adaptive q st fs).st (st.call_number + 1)
      = min (7 + o.noise (st.call_number + 1).toNat) 10 ∧
    resAt (processRow ⟨cs, true⟩ o adaptive q st fs).st (st.call_number + 1) ≤ 10 := by
  have hres : resAt (processRow ⟨cs, true⟩ o adaptive q st fs).st (st.call_number + 1)
      = min (7 + o.noise (st.call_number + 1).toNat) 10 := by
    simp [processRow, resAt, lookup_dictInsert]
  refine ⟨rfl, hres, ?_⟩
  rw [hres]
  exact min_le_right _ _

/-- C7: when an acquisition rule is supplied but its acquisition surface is
not evaluable (`acquisition_function` is `None`), the checkpoint callback
records the all-zero acquisition field of the diagnostic grid's shape in the
rewritten checkpoint file and still returns the do-not-stop signal, for both
recorded dimensionalities. -/
theorem checkpoint_zero_acq_field :
    (∀ (sqrtq : ℚ → ℚ) (m : Model) (st : CallbackState),
        (gp_model_callback 1 (some ⟨none⟩) sqrtq [m] st).1.acq_list
            = st.acq_list ++ [List.replicate (gridSize 1) 0] ∧
        (∃ cp, (gp_model_callback 1 (some ⟨none⟩) sqrtq [m] st).1.written = some cp ∧
            cp.acq = some (st.acq_list ++ [List.replicate (gridSize 1) 0])) ∧
        (gp_model_callback 1 (some ⟨none⟩) sqrtq [m] st).2 = false) ∧
    (∀ (sqrtq : ℚ → ℚ) (m : Model) (st : CallbackState),
        (gp_model_callback 2 (some ⟨none⟩) sqrtq [m] st).1.acq_list
            = st.acq_list ++ [List.replicate (gridSize 2) 0] ∧
        (∃ cp, (gp_model_callback 2 (some ⟨none⟩) sqrtq [m] st).1.written = some cp ∧
            cp.acq = some (st.acq_list ++ [List.replicate (gridSize 2) 0])) ∧
        (gp_model_callback 2 (some ⟨none⟩) sqrtq [m] st).2 = false) :=
  ⟨fun sqrtq m st => ⟨rfl, ⟨_, rfl, rfl⟩, rfl⟩,
   fun sqrtq m st => ⟨rfl, ⟨_, rfl, rfl⟩, rfl⟩⟩

/-- C8: on any inputs the checkpoint callback returns the boolean false
("do not stop"), so stopping is controlled only by the fixed step budget. -/
theorem gp_model_callback_never_stops (dims : Nat) (acq_rule : Option AcqRule)
    (sqrtq : ℚ → ℚ) (gp_models : List Model) (st : CallbackState) :
    (gp_model_callback dims acq_rule sqrtq gp_models st).2 = false := rfl

/-- C10: after `k` checkpoint-callback invocations the checkpoint file's
`call` coordinate is exactly the one-based consecutive sequence `[1, ..., k]`
(its length equals the number of invocations so far), the results file's
`call` coordinate is `[1, ..., N]` for `N` observations, and — in contrast —
the ledger's `call_number` keys are the zero-based `[0, ..., N-1]`. -/
theorem call_coords_one_based :
    (∀ (ar : Option AcqRule) (sqrtq : ℚ → ℚ) (models : Nat → Model) (k : Nat),
        (iterCallback 1 ar sqrtq models k).ypred_list.length = k ∧
        writtenCallCoord (iterCallback 1 ar sqrtq models k) = List.range' 1 k) ∧
    (∀ (ar : Option AcqRule) (sqrtq : ℚ → ℚ) (models : Nat → Model) (k : Nat),
        (iterCallback 2 ar sqrtq models k).ypred_list.length = k ∧
        writtenCallCoord (iterCallback 2 ar sqrtq models k) = List.range' 1 k) ∧
    (∀ (cs : Constraints) (qs : List (List ℚ)) (obs : List ℚ),
        (save_results cs qs obs).callCoord = List.range' 1 obs.length) ∧
    (∀ (cfg : EvalCfg) (o : Oracles) (adaptive : Bool) (qs : List (List ℚ))
        (fs : ExpFS),
        ledgerKeys (objBatch cfg o adaptive qs initObjState fs).st.output
          = (List.range qs.length).map Int.ofNat) := by
  refine ⟨?_, ?_, ?_, fun cfg o adaptive qs fs => ledger_keys_objBatch cfg o adaptive qs fs⟩
  · intro ar sqrtq models k
    obtain ⟨h1, h2⟩ := iterCallback_spec 1 ar sqrtq models (Or.inl rfl) k
    exact ⟨h1, by rw [h2, map_succ_range]⟩
  · intro ar sqrtq models k
    obtain ⟨h1, h2⟩ := iterCallback_spec 2 ar sqrtq models (Or.inr rfl) k
    exact ⟨h1, by rw [h2, map_succ_range]⟩
  · intro cs qs obs
    show (List.range obs.length).map (fun x => x + 1) = _
    exact map_succ_range _

/-- C9: `rescale_inverse` applies the elementwise affine map
`physical = min + x*(max-min)` per dimension, preserving the declared order;
on the spec's worked example it maps `[0.5, 0.5, 0.5]` to `[0, 7.5, 0]`. -/
theorem rescale_affine_and_example :
    (∀ (x : List ℚ) (cs : Constraints),
        (rescale_inverse x cs).length = min cs.order.length x.length) ∧
    (∀ (x : List ℚ) (cs : Constraints) (i : Nat),
        i < cs.order.length → i < x.length →
        (rescale_inverse x cs).getD i 0 =
          (cs.find (cs.order.getD i "")).min
            + x.getD i 0 * ((cs.find (cs.order.getD i "")).max
              - (cs.find (cs.order.getD i "")).min)) ∧
    rescale_inverse [1/2, 1/2, 1/2] exampleConstraints = [0, 15/2, 0] := by
  refine ⟨?_, ?_, ?_⟩
  · intro x cs
    simp [rescale_inverse]
  · intro x cs i h1 h2
    exact zipWith_getD _ cs.order x i h1 h2
  · have e1 : exampleConstraints.find "angle" = ⟨-80, 80, "degrees"⟩ := rfl
    have e2 : exampleConstraints.find "trans_speed" = ⟨0, 15, "m s-1"⟩ := rfl
    have e3 : exampleConstraints.find "displacement" = ⟨-2, 2, "degrees"⟩ := rfl
    have h : rescale_inverse [1/2, 1/2, 1/2] exampleConstraints
        = [(exampleConstraints.find "angle").min
             + 1/2 * ((exampleConstraints.find "angle").max
               - (exampleConstraints.find "angle").min),
           (exampleConstraints.find "trans_speed").min
             + 1/2 * ((exampleConstraints.find "trans_speed").max
               - (exampleConstraints.find "trans_speed").min),
           (exampleConstraints.find "displacement").min
             + 1/2 * ((exampleConstraints.find "displacement").max
               - (exampleConstraints.find "displacement").min)] := rfl
    rw [h, e1, e2, e3]
    norm_num

/-- C1 counterexample: with the unrecognized kernel name "RBF", one
initial-design step and the simulator enabled, the driver performs one
simulator evaluation (and a ledger write) before raising the fatal
configuration error — refuting "fails before any simulator evaluation (and
before any dry-run objective evaluation)". -/
theorem bad_kernel_evaluates_before_failing :
    (run_bayesopt_exp badKernelCfg freshWorld zeroOracles).events
      = [Event.mkdirOutput, Event.writeConfig, Event.objEval false true,
         Event.ledgerWrite, Event.configError "kernel"] ∧
    isError (run_bayesopt_exp badKernelCfg freshWorld zeroOracles).outcome = true ∧
    countEvents isSimEval (run_bayesopt_exp badKernelCfg freshWorld zeroOracles).events
      = 1 := by
  exact ⟨by decide, rfl, by decide⟩

/-- C1 (amended): with a kernel name outside {Matern52, Matern32, SE}, or a
recognized kernel and an acquisition name outside {mes, ei, ucb}, on an
experiment that is not already complete, the run fails with a fatal
configuration error before any adaptive-phase evaluation (zero adaptive
evaluations, no checkpoint write, no results write) — but only after the
`init_steps` initial-design objective evaluations, which invoke the
simulator unless dry-run mode is enabled. -/
theorem config_error_after_initial_design (cfg : DriverCfg) (w : World)
    (o : Oracles)
    (hbad : cfg.kernel ∉ knownKernels ∨
      (cfg.kernel ∈ knownKernels ∧ cfg.daf ∉ knownDafs))
    (hrun : run_exists (w EXP_PATH) (cfg.init_steps + cfg.daf_steps) = false) :
    isError (run_bayesopt_exp cfg w o).outcome = true ∧
    countEvents isAdaptiveEval (run_bayesopt_exp cfg w o).events = 0 ∧
    countEvents isObjEval (run_bayesopt_exp cfg w o).events = cfg.init_steps ∧
    countEvents isSimEval (run_bayesopt_exp cfg w o).events
      = (if cfg.wrap_test then 0 else cfg.init_steps) ∧
    Event.checkpointWrite ∉ (run_bayesopt_exp cfg w o).events ∧
    Event.resultsWrite ∉ (run_bayesopt_exp cfg w o).events := by
  have hbatch := objBatch_events ⟨cfg.constraints, cfg.wrap_test⟩ o false
    ((List.range cfg.init_steps).map o.initQ) initObjState
    { w cfg.root_exp_direc with outputDirExists := true, configFileExists := true }
  rcases hbad with hk | ⟨hk, hd⟩
  · have hev : (run_bayesopt_exp cfg w o).events
        = [Event.mkdirOutput, Event.writeConfig]
          ++ (objBatch ⟨cfg.constraints, cfg.wrap_test⟩ o false
                ((List.range cfg.init_steps).map o.initQ) initObjState
                { w cfg.root_exp_direc with
                  outputDirExists := true, configFileExists := true }).events
          ++ [Event.configError "kernel"] := by
      simp [run_bayesopt_exp, hrun, hk]
    have hout : (run_bayesopt_exp cfg w o).outcome
        = Except.error ("Unknown kernel " ++ cfg.kernel) := by
      simp [run_bayesopt_exp, hrun, hk]
    rw [hev, hout, hbatch]
    refine ⟨rfl, ?_, ?_, ?_, ?_, ?_⟩ <;>
      simp [countEvents_append, countEvents_flatten_replicate, countEvents,
        isAdaptiveEval, isObjEval, isSimEval, List.mem_flatten, List.mem_replicate] <;>
      cases cfg.wrap_test <;> simp [isSimEval, isObjEval, isAdaptiveEval]
  · have hev : (run_bayesopt_exp cfg w o).events
        = [Event.mkdirOutput, Event.writeConfig]
          ++ (objBatch ⟨cfg.constraints, cfg.wrap_test⟩ o false
                ((List.range cfg.init_steps).map o.initQ) initObjState
                { w cfg.root_exp_direc with
                  outputDirExists := true, configFileExists := true }).events
          ++ [Event.configError "acquisition"] := by
      simp [run_bayesopt_exp, hrun, hk, hd]
    have hout : (run_bayesopt_exp cfg w o).outcome
        = Except.error ("Unknown acquisition function " ++ cfg.daf) := by
      simp [run_bayesopt_exp, hrun, hk, hd]
    rw [hev, hout, hbatch]
    refine ⟨rfl, ?_, ?_, ?_, ?_, ?_⟩ <;>
      simp [countEvents_append, countEvents_flatten_replicate, countEvents,
        isAdaptiveEval, isObjEval, isSimEval, List.mem_flatten, List.mem_replicate] <;>
      cases cfg.wrap_test <;> simp [isSimEval, isObjEval, isAdaptiveEval]

/-- Closed instance of the amended C1 theorem at the concrete unrecognized
kernel configuration. -/
theorem config_error_after_initial_design_witness :
    isError (run_bayesopt_exp badKernelCfg freshWorld zeroOracles).outcome = true ∧
    countEvents isAdaptiveEval
      (run_bayesopt_exp badKernelCfg freshWorld zeroOracles).events = 0 ∧
    countEvents isObjEval (run_bayesopt_exp badKernelCfg freshWorld zeroOracles).events
      = badKernelCfg.init_steps ∧
    countEvents isSimEval (run_bayesopt_exp badKernelCfg freshWorld zeroOracles).events
      = (if badKernelCfg.wrap_test then 0 else badKernelCfg.init_steps) ∧
    Event.checkpointWrite ∉ (run_bayesopt_exp badKernelCfg freshWorld zeroOracles).events ∧
    Event.resultsWrite ∉ (run_bayesopt_exp badKernelCfg freshWorld zeroOracles).events :=
  config_error_after_initial_design badKernelCfg freshWorld zeroOracles
    (Or.inl (by decide)) (by decide)

/-- C6 counterexample: the resumability check always inspects
`EXP_PATH/<exp_name>` (src/adbo/exp.py line 466) while the run writes under
`root_exp_direc/<exp_name>` (line 516). With the non-default root of
`customRootCfg`, the first invocation performs 2 simulator evaluations, the
directory state it leaves still fails the check, and the second invocation
with identical configuration performs 2 further simulator evaluations —
refuting "zero additional simulator calls on the second invocation". -/
theorem second_run_reruns_with_custom_root :
    countEvents isSimEval
      (run_bayesopt_exp customRootCfg freshWorld zeroOracles).events = 2 ∧
    run_exists
      ((run_bayesopt_exp customRootCfg freshWorld zeroOracles).world EXP_PATH)
      (customRootCfg.init_steps + customRootCfg.daf_steps) = false ∧
    countEvents isSimEval
      (run_bayesopt_exp customRootCfg
        (run_bayesopt_exp customRootCfg freshWorld zeroOracles).world
        zeroOracles).events = 2 := by
  refine ⟨by decide, by decide, by decide⟩

/-- C6 (amended): when the resumability check — which reads
`EXP_PATH/<exp_name>` — holds at entry, the driver returns early with only a
notice: no directory creation, no configuration write, no ledger, checkpoint
or results write, zero objective evaluations, and the filesystem unchanged.
The two-invocation idempotence holds under the guards the code's path
handling forces: the run must write where the check reads
(`root_exp_direc = EXP_PATH`), and the results file `<exp_name>_results.nc`
must not itself match the `exp_` filter; then a completed first run makes
the check pass and the second invocation performs zero evaluations. -/
theorem driver_idempotent_same_root :
    (∀ (cfg : DriverCfg) (w : World) (o : Oracles),
        run_exists (w EXP_PATH) (cfg.init_steps + cfg.daf_steps) = true →
        run_bayesopt_exp cfg w o
          = { world := w, events := [Event.notice]
            , outcome := Except.ok (), results := none } ∧
        countEvents isObjEval (run_bayesopt_exp cfg w o).events = 0) ∧
    (∀ (cfg : DriverCfg) (w : World) (o : Oracles),
        cfg.root_exp_direc = EXP_PATH →
        startsWithExp (cfg.exp_name ++ "_results.nc") = false →
        (w EXP_PATH).entries.filter DirEntry.isExpEntry = [] →
        cfg.kernel ∈ knownKernels → cfg.daf ∈ knownDafs →
        0 < cfg.init_steps + cfg.daf_steps →
        run_exists ((run_bayesopt_exp cfg w o).world EXP_PATH)
          (cfg.init_steps + cfg.daf_steps) = true ∧
        (run_bayesopt_exp cfg ((run_bayesopt_exp cfg w o).world) o).events
          = [Event.notice] ∧
        countEvents isObjEval
          (run_bayesopt_exp cfg ((run_bayesopt_exp cfg w o).world) o).events
          = 0) := by
  have hearly : ∀ (cfg : DriverCfg) (w : World) (o : Oracles),
      run_exists (w EXP_PATH) (cfg.init_steps + cfg.daf_steps) = true →
      run_bayesopt_exp cfg w o
        = { world := w, events := [Event.notice]
          , outcome := Except.ok (), results := none } := by
    intro cfg w o h
    simp [run_bayesopt_exp, h]
  constructor
  · intro cfg w o h
    refine ⟨hearly cfg w o h, ?_⟩
    rw [hearly cfg w o h]
    rfl
  · intro cfg w o hroot hname hfil hk hd hpos
    by_cases hre : run_exists (w EXP_PATH) (cfg.init_steps + cfg.daf_steps) = true
    · have h1 := hearly cfg w o hre
      rw [h1]
      exact ⟨hre, by rw [hearly cfg w o hre], by rw [hearly cfg w o hre]; rfl⟩
    · have hre' : run_exists (w EXP_PATH) (cfg.init_steps + cfg.daf_steps)
          = false := by simpa using hre
      have hw0 : w cfg.root_exp_direc = w EXP_PATH := by rw [hroot]
      have hL0 : LedgerInv 0 initObjState := ⟨rfl, rfl⟩
      have hF0 : FsInv 0 { w cfg.root_exp_direc with
          outputDirExists := true, configFileExists := true } := by
        refine ⟨?_, fun h => absurd h (lt_irrefl 0), rfl⟩
        show List.filter DirEntry.isExpEntry (w cfg.root_exp_direc).entries
          = (List.range 0).map DirEntry.numbered
        rw [hw0, hfil]
        rfl
      have hbF : FsInv cfg.init_steps (initPhase cfg w o).fs := by
        have h := fsInv_objBatch ⟨cfg.constraints, cfg.wrap_test⟩ o false
          ((List.range cfg.init_steps).map o.initQ) initObjState
          { w cfg.root_exp_direc with
            outputDirExists := true, configFileExists := true } 0 hL0 hF0
        simpa [initPhase] using h
      have hbL : LedgerInv cfg.init_steps (initPhase cfg w o).st := by
        have h := ledgerInv_objBatch ⟨cfg.constraints, cfg.wrap_test⟩ o false
          ((List.range cfg.init_steps).map o.initQ) initObjState
          { w cfg.root_exp_direc with
            outputDirExists := true, configFileExists := true } 0 hL0
        simpa [initPhase] using h
      have hl := inv_adaptiveLoop ⟨cfg.constraints, cfg.wrap_test⟩ o
        cfg.constraints.order.length (some ⟨o.acqFn⟩) cfg.daf_steps
        (initPhase cfg w o).st (initPhase cfg w o).fs initCallbackState
        cfg.init_steps hbL hbF
      have hlF : FsInv (cfg.init_steps + cfg.daf_steps) (adaptPhase cfg w o).fs :=
        hl.2
      have hex : (if (adaptPhase cfg w o).fs.resultsFileExists
            then ([] : List DirEntry)
            else [DirEntry.stray
                    (startsWithExp (cfg.exp_name ++ "_results.nc"))]).filter
          DirEntry.isExpEntry = [] := by
        rw [hname]
        split <;> rfl
      have hw2 : (run_bayesopt_exp cfg w o).world EXP_PATH
          = { (adaptPhase cfg w o).fs with
              entries := (adaptPhase cfg w o).fs.entries
                ++ (if (adaptPhase cfg w o).fs.resultsFileExists then []
                    else [DirEntry.stray
                            (startsWithExp (cfg.exp_name ++ "_results.nc"))])
            , resultsFileExists := true } := by
        rw [run_bayesopt_success_world cfg w o hre' hk hd, hroot,
          World.update_self]
      have hfinal : FsInv (cfg.init_steps + cfg.daf_steps)
          ((run_bayesopt_exp cfg w o).world EXP_PATH) := by
        rw [hw2]
        exact fsInv_append_nonmatching _ _ _ hlF hex
      have hrex := run_exists_of_fsInv _ _ hfinal hpos
      exact ⟨hrex, by rw [hearly cfg _ o hrex],
        by rw [hearly cfg _ o hrex]; rfl⟩

end Adbo
